import Mathlib

/-!
Verification of the restart/error-recovery and parameter-derivation layer of
the aiida-wannier90-workflows repository.

The development shallowly embeds the Python sources
`workflows/base/qebaserestart.py` and `workflows/wannier.py`:
pure functions become Lean functions, dictionary-shaped inputs become
structures or association lists, raised exceptions become `Except` errors,
and floating-point energies are modelled as rationals (the properties at
stake are order/selection properties, not rounding behaviour).
-/

/-! ## Out-of-memory recovery handler (`qebaserestart.py`) -/

/-- ASCII decimal digit test, as used by the regex class `\d`. -/
def isAsciiDigit (c : Char) : Bool := '0' ≤ c && c ≤ '9'

/-- Whitespace stripped by Python `int()` before parsing (ASCII subset). -/
def isPySpace (c : Char) : Bool :=
  c = ' ' || c = '\t' || c = '\n' || c = '\r'

/-- Value of a list of decimal digits. -/
def digitsToNat (l : List Char) : Nat :=
  l.foldl (fun a c => 10 * a + (c.toNat - '0'.toNat)) 0

/-- Python `int(s)` on a decimal string: optional surrounding whitespace,
optional sign, then at least one digit; anything else raises `ValueError`,
modelled as `none`.  (Digit-group underscores are not modelled.) -/
def pyInt (s : String) : Option Int :=
  let l := (((s.toList.dropWhile isPySpace).reverse.dropWhile isPySpace).reverse)
  match l with
  | '+' :: rest =>
      if rest ≠ [] && rest.all isAsciiDigit then some (digitsToNat rest) else none
  | '-' :: rest =>
      if rest ≠ [] && rest.all isAsciiDigit then some (-(digitsToNat rest : Int)) else none
  | rest =>
      if rest ≠ [] && rest.all isAsciiDigit then some (digitsToNat rest) else none

/-- Match of the regex `Detected \d+ oom-kill event\(s\) in step` at the head
of the character list: the literal `Detected `, one or more digits, then the
literal ` oom-kill event(s) in step`. -/
def oomRegexAt (l : List Char) : Bool :=
  "Detected ".toList.isPrefixOf l &&
    (let rest := l.drop "Detected ".length
     rest.takeWhile isAsciiDigit ≠ [] &&
       " oom-kill event(s) in step".toList.isPrefixOf (rest.dropWhile isAsciiDigit))

/-- `re.search` of the oom-kill regex: a match at some position of the line. -/
def oomRegexSearch : List Char → Bool
  | [] => oomRegexAt []
  | l@(_ :: t) => oomRegexAt l || oomRegexSearch t

/-- Python substring containment `sub in l`. -/
def containsSub (sub : List Char) : List Char → Bool
  | [] => sub.isPrefixOf []
  | l@(_ :: t) => sub.isPrefixOf l || containsSub sub t

/-- One scheduler-stderr line carries the out-of-memory signature: either the
oom-kill regex matches somewhere in the line or it contains `Out Of Memory`. -/
def oom_line (s : String) : Bool :=
  oomRegexSearch s.toList || containsSub "Out Of Memory".toList s.toList

/-- Exit code `ERROR_OUTPUT_STDOUT_INCOMPLETE` declared by
`QeBaseRestartWorkChain.define`. -/
def ERROR_OUTPUT_STDOUT_INCOMPLETE : Nat := 311

/-- `_mpi_proc_reduce_factor` class attribute. -/
def mpi_proc_reduce_factor : Nat := 2

/-- The slice of `self.ctx.inputs` read and written by the handler:
`metadata.options.resources.num_mpiprocs_per_machine` (absent key modelled as
`none`, the code defaults it to 1), whether a `settings` input exists, and the
`cmdline` entry of the settings dictionary (`none` models both a missing key
and an explicit null). -/
structure CtxInputs where
  num_mpiprocs_per_machine : Option Nat
  has_settings : Bool
  cmdline : Option (List String)
deriving DecidableEq

/-- First index of `key` in the list, i.e. Python `cmdline.index(key)` guarded
by `key in cmdline` (`none` when the key is absent). -/
def firstIdx : List String → String → Option Nat
  | [], _ => none
  | x :: t, key => if x = key then some 0 else (firstIdx t key).map (· + 1)

/-- Body of the `for key in ('-nk', '-npools')` loop for one key: find the
first occurrence of the flag, skip when it is the last token, try to halve the
following token with Python `int`, and leave it alone on a parse failure. -/
def halveAfterKey (key : String) (c : List String) : List String :=
  match firstIdx c key with
  | none => c
  | some idx =>
      if idx + 1 > c.length - 1 then c
      else
        match pyInt (c.getD (idx + 1) "") with
        | none => c
        | some n => c.set (idx + 1) (toString (Int.fdiv n 2))

/-- The full cmdline adjustment: the loop runs for `-nk` and then `-npools`
on the (possibly already mutated) list. -/
def reduce_cmdline (c : List String) : List String :=
  halveAfterKey "-npools" (halveAfterKey "-nk" c)

/-- The `if 'settings' in self.ctx.inputs` block of the handler: reduce the
cmdline pool flags when a settings input with a truthy `cmdline` entry exists
(Python treats the empty list as falsy). -/
def apply_cmdline_reduction (inputs : CtxInputs) : CtxInputs :=
  if inputs.has_settings then
    match inputs.cmdline with
    | some c =>
        if c.isEmpty then inputs
        else { inputs with cmdline := some (reduce_cmdline c) }
    | none => inputs
  else inputs

/-- `handle_output_stdout_incomplete`: given the scheduler stderr split into
lines and the current inputs, return the `ProcessHandlerReport` exit code
(`none` models `ProcessHandlerReport(True)`, i.e. retry; `some code` models
`ProcessHandlerReport(True, code)`) together with the inputs left for the next
submission. -/
def handle_output_stdout_incomplete (stderr_lines : List String)
    (inputs : CtxInputs) : Option Nat × CtxInputs :=
  if ¬ stderr_lines.any oom_line then
    (some ERROR_OUTPUT_STDOUT_INCOMPLETE, inputs)
  else
    let current := inputs.num_mpiprocs_per_machine.getD 1
    if current = 1 then
      (some ERROR_OUTPUT_STDOUT_INCOMPLETE, inputs)
    else
      let inputs' := { inputs with
        num_mpiprocs_per_machine := some (current / mpi_proc_reduce_factor) }
      (none, apply_cmdline_reduction inputs')

/-! ## Enumerations and builder decisions (`wannier.py`) -/

/-- `WannierProjectionType` enumeration. -/
inductive WannierProjectionType where
  | HYDROGEN
  | NUMERIC
  | SCDM
  | RANDOM
deriving DecidableEq

/-- `WannierDisentanglementType` enumeration. -/
inductive WannierDisentanglementType where
  | NONE
  | WINDOW_FIXED
  | WINDOW_AUTO
  | PROJECTABILITY
  | WINDOW_AND_PROJECTABILITY
  | AUTO
deriving DecidableEq

/-- `ElectronicType` enumeration of aiida-quantumespresso, as consumed by the
builder (the builder has already rejected values other than `METAL` and
`INSULATOR` before the disentanglement resolution runs). -/
inductive ElectronicType where
  | METAL
  | INSULATOR
  | AUTOMATIC
deriving DecidableEq

/-- The `projection_type` argument of `get_builder_from_protocol`.  Unlike
`electronic_type` and `spin_type` it is never passed to `type_check`, so at
run time it may be any Python value; values outside the enumeration compare
unequal to every enumeration member.  -/
inductive ProjectionInput where
  | known (p : WannierProjectionType)
  | other (s : String)
deriving DecidableEq

/-- The `if disentanglement_type == AUTO` branch of
`get_builder_from_protocol` (wannier.py lines 1301-1313): `INSULATOR` maps to
`NONE`; otherwise `HYDROGEN`/`RANDOM` map to `WINDOW_FIXED`, `NUMERIC` to
`WINDOW_AND_PROJECTABILITY`, `SCDM` to `NONE`, and anything else raises
`ValueError`. -/
def resolve_auto_disentanglement (et : ElectronicType) (proj : ProjectionInput) :
    Except String WannierDisentanglementType :=
  if et = ElectronicType.INSULATOR then
    Except.ok WannierDisentanglementType.NONE
  else
    match proj with
    | ProjectionInput.known WannierProjectionType.HYDROGEN =>
        Except.ok WannierDisentanglementType.WINDOW_FIXED
    | ProjectionInput.known WannierProjectionType.RANDOM =>
        Except.ok WannierDisentanglementType.WINDOW_FIXED
    | ProjectionInput.known WannierProjectionType.NUMERIC =>
        Except.ok WannierDisentanglementType.WINDOW_AND_PROJECTABILITY
    | ProjectionInput.known WannierProjectionType.SCDM =>
        Except.ok WannierDisentanglementType.NONE
    | ProjectionInput.other s =>
        Except.error
          ("Cannot automatically guess disentanglement type from projection type: " ++ s)

/-- Disentanglement resolution as performed by the builder: only the `AUTO`
value is rewritten, every other value is kept as given. -/
def resolve_disentanglement (dt : WannierDisentanglementType)
    (et : ElectronicType) (proj : ProjectionInput) :
    Except String WannierDisentanglementType :=
  if dt = WannierDisentanglementType.AUTO then resolve_auto_disentanglement et proj
  else Except.ok dt

/-- The projwfc enablement decision of `get_builder_from_protocol`
(wannier.py lines 1271-1277): start from the protocol flag
`inputs.get('projwfc', False)`, force it on for `SCDM` projections and for a
`WINDOW_AUTO` disentanglement input. -/
def resolve_run_projwfc (protocol_projwfc : Option Bool)
    (proj : WannierProjectionType) (disent : WannierDisentanglementType) : Bool :=
  let r := protocol_projwfc.getD false
  let r := if proj = WannierProjectionType.SCDM then true else r
  if disent = WannierDisentanglementType.WINDOW_AUTO then true else r

/-! ## Fermi-energy extraction and wannier90 parameter preparation -/

/-- The fields of the scf `output_parameters` dictionary read by
`get_fermi_energy`; a missing key is `none`. -/
structure ScfOut where
  fermi_energy : Option ℚ
  fermi_energy_units : Option String
deriving DecidableEq

/-- `get_fermi_energy` (wannier.py lines 1357-1371): return the value of the
`fermi_energy` field when `fermi_energy_units` is exactly `eV`, else `None`. -/
def get_fermi_energy (o : ScfOut) : Option ℚ :=
  if o.fermi_energy_units ≠ some "eV" then none else o.fermi_energy

/-- The wannier90 parameter dictionary restricted to the keys read or written
by `prepare_wannier90_inputs`; every field is optional because the Python code
probes each key with `get`/`in` (a missing `num_wann` would raise `KeyError`
in the cap block). -/
structure W90Params where
  dis_froz_min : Option ℚ
  dis_froz_max : Option ℚ
  dis_win_min : Option ℚ
  dis_win_max : Option ℚ
  num_wann : Option Nat
deriving DecidableEq

/-- The workchain context and inputs consumed by `prepare_wannier90_inputs`:
the `relative_dis_windows` input, the scf output parameters when the scf stage
ran, whether the `auto_froz_max` input key is present, the value the external
`get_energy_of_projectability` utility would return, and the projwfc band
energies (k-points by bands). -/
structure PrepCtx where
  relative_dis_windows : Bool
  scf : Option ScfOut
  auto_froz_max : Bool
  energy_of_projectability : ℚ
  projwfc_bands : List (List ℚ)

/-- The window-shifting loop (wannier.py lines 455-463): each of the four
window keys present in the parameters is incremented by the Fermi energy. -/
def shift_windows (ef : ℚ) (p : W90Params) : W90Params :=
  { p with
    dis_froz_min := p.dis_froz_min.map (· + ef)
    dis_froz_max := p.dis_froz_max.map (· + ef)
    dis_win_min := p.dis_win_min.map (· + ef)
    dis_win_max := p.dis_win_max.map (· + ef) }

/-- The two Fermi-energy blocks of `prepare_wannier90_inputs` (lines 433-463):
with `relative_dis_windows` and no scf stage, raise; with an scf stage whose
Fermi energy is not retrievable, raise (whatever `relative_dis_windows` is);
with a retrievable Fermi energy, shift the windows exactly when
`relative_dis_windows` is set. -/
def fermi_stage (ctx : PrepCtx) (p0 : W90Params) : Except String W90Params :=
  if ctx.relative_dis_windows && ctx.scf.isNone then
    Except.error "relative_dis_windows = True but did not run scf calculation"
  else
    match ctx.scf with
    | none => Except.ok p0
    | some s =>
        match get_fermi_energy s with
        | none =>
            Except.error
              "relative_dis_windows = True but cannot retrieve Fermi energy from scf output"
        | some ef =>
            Except.ok (if ctx.relative_dis_windows then shift_windows ef p0 else p0)

/-- The `auto_froz_max` block (lines 466-476): when the input key is present,
overwrite `dis_froz_max` with the externally computed
energy-of-projectability value. -/
def auto_froz_stage (ctx : PrepCtx) (p : W90Params) : W90Params :=
  if ctx.auto_froz_max then { p with dis_froz_max := some ctx.energy_of_projectability }
  else p

/-- `np.min` over a list; `none` models the numpy error on an empty array. -/
def np_min : List ℚ → Option ℚ
  | [] => none
  | x :: xs => some (xs.foldl min x)

/-- Column `j` of the band array, `bands.get_bands()[:, j]` (rows are
k-points; all rows of a numpy 2-d array have the same length, so the `getD`
default is never used for in-range `j`). -/
def bandColumn (bands : List (List ℚ)) (j : Nat) : List ℚ :=
  bands.map (fun row => row.getD j 0)

/-- The frozen-window cap block (lines 478-488): when `dis_froz_max` is
present it is replaced by the minimum of itself and the smallest, over all
k-points, energy of band number `num_wann` (column `num_wann - 1`). -/
def cap_stage (ctx : PrepCtx) (p : W90Params) : Except String W90Params :=
  match p.dis_froz_max with
  | none => Except.ok p
  | some c =>
      match p.num_wann with
      | none => Except.error "KeyError: num_wann"
      | some nw =>
          match np_min (bandColumn ctx.projwfc_bands (nw - 1)) with
          | none => Except.error "zero-size array to reduction operation minimum"
          | some m => Except.ok { p with dis_froz_max := some (min m c) }

/-- Parameters after the Fermi-shift and auto-froz-max blocks, i.e. the state
of the dictionary at the entry of the cap block (line 478). -/
def pre_cap_params (ctx : PrepCtx) (p0 : W90Params) : Except String W90Params :=
  (fermi_stage ctx p0).map (auto_froz_stage ctx)

/-- `prepare_wannier90_inputs` (wannier.py lines 424-491), restricted to its
parameter-dictionary effect: Fermi blocks, auto-froz-max block, then the
frozen-window cap. -/
def prepare_wannier90_inputs (ctx : PrepCtx) (p0 : W90Params) :
    Except String W90Params :=
  (pre_cap_params ctx p0).bind (cap_stage ctx)

/-! ## Semicore band indices (`get_semicore_list`, wannier.py lines 1414-1449) -/

/-- One entry of the pseudopotential orbital metadata table: the ordered
pseudo-wavefunction labels and the subset marked semicore. -/
structure PseudoOrbitals where
  pswfcs : List String
  semicores : List String
deriving DecidableEq

/-- The `label2num` dictionary; a label character outside the table raises
`KeyError`, modelled as `none`. -/
def label2num (c : Char) : Option Nat :=
  if c = 'S' then some 1
  else if c = 'P' then some 3
  else if c = 'D' then some 5
  else if c = 'F' then some 7
  else none

/-- `orb[-1]`: the last character of an orbital label (`none` models the
`IndexError` on an empty label). -/
def orbLastChar (orb : String) : Option Char := orb.toList.getLast?

/-- Result of `get_semicore_list`.  The source distinguishes three outcomes:
a normal return of the index list, the anomalous `return ValueError(...)`
statement on line 1446 which hands the error back as an ordinary value
(`errValue`), and genuinely raised exceptions such as `KeyError` (`raised`). -/
inductive SemicoreResult where
  | ok (l : List Nat)
  | errValue (msg : String)
  | raised (msg : String)
deriving DecidableEq

/-- The inner `for orb in site_pswfcs` loop for one site: threads the running
orbital count, the working copy of the site's semicore set, and the
accumulated index list.  For a semicore orbital the contiguous 1-based range
`range(num_pswfcs + 1, num_pswfcs + num_orbs + 1)` is appended and one
occurrence of the orbital is removed from the working set. -/
def site_walk : List String → List String → Nat → List Nat →
    Except String (Nat × List String × List Nat)
  | [], semicores, n, acc => Except.ok (n, semicores, acc)
  | orb :: rest, semicores, n, acc =>
      match orbLastChar orb with
      | none => Except.error "IndexError: string index out of range"
      | some c =>
          match label2num c with
          | none => Except.error ("KeyError: " ++ String.mk [c])
          | some num_orbs =>
              if orb ∈ semicores then
                site_walk rest (semicores.erase orb) (n + num_orbs)
                  (acc ++ List.range' (n + 1) num_orbs)
              else
                site_walk rest semicores (n + num_orbs) acc

/-- The outer `for site in structure.sites` loop.  A site whose working
semicore set is not emptied by the walk makes the function RETURN a
`ValueError` object (not raise it) — `errValue` reproduces that return value.
(The error message is abridged to the site kind.) -/
def get_semicore_list_go : List String → List (String × PseudoOrbitals) →
    Nat → List Nat → SemicoreResult
  | [], _, _, acc => SemicoreResult.ok acc
  | kind :: rest, table, n, acc =>
      match table.lookup kind with
      | none => SemicoreResult.raised ("KeyError: " ++ kind)
      | some po =>
          match site_walk po.pswfcs po.semicores n acc with
          | Except.error e => SemicoreResult.raised e
          | Except.ok (n', leftover, acc') =>
              if leftover ≠ [] then
                SemicoreResult.errValue ("Error when processing pseudo " ++ kind)
              else
                get_semicore_list_go rest table n' acc'

/-- `get_semicore_list`: the structure is abstracted to the list of its
sites' kind names (the only attribute the function reads), and the pseudo
orbital table to an association list keyed by kind name. -/
def get_semicore_list (sites : List String)
    (pseudo_orbitals : List (String × PseudoOrbitals)) : SemicoreResult :=
  get_semicore_list_go sites pseudo_orbitals 0 []

/-! ## Input dictionaries for the pw2wannier90 and wannier90 stages -/

/-- Values stored in an AiiDA input mapping, as far as the embedded code
inspects them: opaque data nodes (folders, files), booleans, rationals,
strings and nested dictionaries. -/
inductive PVal where
  | node (tag : String) (id : Nat)
  | bool (b : Bool)
  | num (q : ℚ)
  | str (s : String)
  | dict (entries : List (String × PVal))

/-- Lookup of the first binding of `k`, i.e. a Python dict read (our lists
hold at most one binding per key). -/
def assocGet : List (String × PVal) → String → Option PVal
  | [], _ => none
  | (k', v) :: rest, k => if k' = k then some v else assocGet rest k

/-- Python `k in d`. -/
def assocHas (l : List (String × PVal)) (k : String) : Bool :=
  (assocGet l k).isSome

/-- Python `d[k] = v`: overwrite the first binding of `k`, else append. -/
def assocSet : List (String × PVal) → String → PVal → List (String × PVal)
  | [], k, v => [(k, v)]
  | (k', v') :: rest, k, v =>
      if k' = k then (k, v) :: rest else (k', v') :: assocSet rest k v

/-- `for key in src: dst[key] = src[key]` over a whole mapping. -/
def assocMerge (base l : List (String × PVal)) : List (String × PVal) :=
  l.foldl (fun acc kv => assocSet acc kv.1 kv.2) base

/-- The `inputpp` group after the mu/sigma update: `scdm_parameters` collects
the fitted values for the keys still absent and `dict.update` writes them. -/
def scdm_updated_inputpp (inputpp : List (String × PVal))
    (mu_new sigma_new : ℚ) : List (String × PVal) :=
  let upd := if assocHas inputpp "scdm_mu" then inputpp
    else assocSet inputpp "scdm_mu" (PVal.num mu_new)
  if assocHas upd "scdm_sigma" then upd
  else assocSet upd "scdm_sigma" (PVal.num sigma_new)

/-- `update_scdm_mu_sigma` (wannier.py lines 1374-1399): the externally
fitted values `mu_new`/`sigma_new` (from `fit_scdm_mu_sigma_aiida`, outside
this repository) are written into the `inputpp` group only for the keys still
absent there; a parameter dictionary without an `inputpp` group raises
`KeyError`. -/
def update_scdm_mu_sigma (parameters : List (String × PVal))
    (mu_new sigma_new : ℚ) : Except String (List (String × PVal)) :=
  match assocGet parameters "inputpp" with
  | some (PVal.dict inputpp) =>
      Except.ok (assocSet parameters "inputpp"
        (PVal.dict (scdm_updated_inputpp inputpp mu_new sigma_new)))
  | _ => Except.error "KeyError: inputpp"

/-- Context consumed by `prepare_pw2wannier90_inputs`: the exposed
`pw2wannier90` namespace inputs, the current remote folder, the `nnkp_file`
output of the postproc workchain, whether the projwfc stage ran, and the
mu/sigma pair the external erfc fit would produce. -/
structure P2WCtx where
  exposed : List (String × PVal)
  current_folder : PVal
  pp_nnkp_file : PVal
  projwfc_present : Bool
  fit_mu : ℚ
  fit_sigma : ℚ

/-- `prepare_pw2wannier90_inputs` (wannier.py lines 529-584): set
`parent_folder` and `nnkp_file`, read the scdm switches from the `inputpp`
group, reject an underspecified gaussian entanglement, and run the mu/sigma
update (with its exceptions re-raised as `ValueError`) when an erfc scdm fit
is requested and the projwfc stage ran. -/
def prepare_pw2wannier90_inputs (ctx : P2WCtx) :
    Except String (List (String × PVal)) :=
  let inputs := assocSet ctx.exposed "parent_folder" ctx.current_folder
  let inputs := assocSet inputs "nnkp_file" ctx.pp_nnkp_file
  let parameters := match assocGet inputs "parameters" with
    | some (PVal.dict d) => d
    | _ => []
  let inputpp := match assocGet parameters "inputpp" with
    | some (PVal.dict d) => d
    | _ => []
  let scdm_proj := match assocGet inputpp "scdm_proj" with
    | some (PVal.bool b) => b
    | _ => false
  let scdm_entanglement := match assocGet inputpp "scdm_entanglement" with
    | some (PVal.str s) => some s
    | _ => none
  let scdm_mu := match assocGet inputpp "scdm_mu" with
    | some (PVal.num q) => some q
    | _ => none
  let scdm_sigma := match assocGet inputpp "scdm_sigma" with
    | some (PVal.num q) => some q
    | _ => none
  let calc_scdm_params :=
    scdm_proj && scdm_entanglement == some "erfc" &&
      (scdm_mu.isNone || scdm_sigma.isNone)
  if scdm_entanglement == some "gaussian" && (scdm_mu.isNone || scdm_sigma.isNone) then
    Except.error "scdm_entanglement = gaussian but scdm_mu or scdm_sigma is empty."
  else if calc_scdm_params then
    if ctx.projwfc_present = false then
      Except.error "Needs to run projwfc before auto-generating scdm_mu/sigma"
    else
      match update_scdm_mu_sigma parameters ctx.fit_mu ctx.fit_sigma with
      | Except.error e => Except.error ("update_scdm_mu_sigma failed! " ++ e)
      | Except.ok newparams => Except.ok (assocSet inputs "parameters" (PVal.dict newparams))
  else
    Except.ok inputs

/-- A sub-calculation called by the postproc base workchain: its pk and its
input mapping. -/
structure Calc where
  pk : Nat
  inputs : List (String × PVal)

/-- Left-to-right scan keeping the current best, ties keeping the earlier
element: the behaviour of Python `max(iterable, key=...)`. -/
def maxByPkAux (best : Calc) : List Calc → Calc
  | [] => best
  | x :: xs => maxByPkAux (if x.pk > best.pk then x else best) xs

/-- `max(self.ctx.workchain_wannier90_pp.called, key=lambda calc: calc.pk)`;
`none` models the `ValueError` of `max` on an empty sequence. -/
def maxByPk : List Calc → Option Calc
  | [] => none
  | c :: cs => some (maxByPkAux c cs)

/-- Context consumed by `run_wannier90` when it builds the localization-stage
inputs: the exposed `wannier90` namespace inputs, the current remote folder,
and the calculations called by the postproc workchain. -/
structure RunW90Ctx where
  exposed : List (String × PVal)
  current_folder : PVal
  pp_called : List Calc

/-- Body of the `run_wannier90` input construction for a given last-called
postproc calculation. -/
def run_wannier90_inputs_body (ctx : RunW90Ctx) (last_calc : Calc) :
    List (String × PVal) :=
  let inputs := assocSet ctx.exposed "remote_input_folder" ctx.current_folder
  let inputs := assocMerge inputs last_calc.inputs
  let settings := match assocGet inputs "settings" with
    | some (PVal.dict d) => d
    | _ => []
  let settings := assocSet settings "postproc_setup" (PVal.bool false)
  assocSet inputs "settings" (PVal.dict settings)

/-- The input construction of `run_wannier90` (wannier.py lines 608-634): set
`remote_input_folder`, copy every input field of the called postproc
calculation with the largest pk, then force `postproc_setup = False` in the
settings dictionary (an empty one when no settings input exists; the
`settings` port only holds dictionary nodes). -/
def run_wannier90_inputs (ctx : RunW90Ctx) :
    Except String (List (String × PVal)) :=
  match maxByPk ctx.pp_called with
  | none => Except.error "max() arg is an empty sequence"
  | some last_calc => Except.ok (run_wannier90_inputs_body ctx last_calc)

/-! ## Concrete instances used by the counterexample and code-bug theorems -/

/-- Metadata table whose single entry declares the semicore orbital `5P`
which does not occur in the pseudo-wavefunction list. -/
def c2FailingTable : List (String × PseudoOrbitals) :=
  [("X", ⟨["5S"], ["5P"]⟩)]

/-- A consistent two-site metadata table: element `A` has a semicore `1S`
followed by a non-semicore `2P`, element `B` a lone non-semicore `3D`. -/
def c2OkTable : List (String × PseudoOrbitals) :=
  [("A", ⟨["1S", "2P"], ["1S"]⟩), ("B", ⟨["3D"], []⟩)]

/-- The postproc stage's only called calculation in the C5 scenario: pk 7,
with a corrected `kmesh_tol` among its inputs. -/
def c5PPCalc : Calc := ⟨7, [("kmesh_tol", PVal.num 1)]⟩

/-- A matrix-generation (pw2wannier90) preparation context paired with the
postproc sub-calculation above: plain parameters, no scdm fitting. -/
def c5P2WCtx : P2WCtx :=
  { exposed := [("parameters", PVal.dict [])]
    current_folder := PVal.node "remote_folder" 1
    pp_nnkp_file := PVal.node "nnkp_file" 2
    projwfc_present := false
    fit_mu := 0
    fit_sigma := 0 }

/-- The pw2wannier90 inputs the preparation yields in that scenario. -/
def c5P2WOut : List (String × PVal) :=
  [("parameters", PVal.dict []),
   ("parent_folder", PVal.node "remote_folder" 1),
   ("nnkp_file", PVal.node "nnkp_file" 2)]

/-! ## Helper lemmas -/

theorem list_getD_set_ne : ∀ (l : List String) (i j : Nat) (a d : String),
    i ≠ j → (l.set i a).getD j d = l.getD j d
  | [], _, _, _, _, _ => rfl
  | _ :: _, 0, 0, _, _, h => absurd rfl h
  | _ :: _, 0, _ + 1, _, _, _ => rfl
  | _ :: _, _ + 1, 0, _, _, _ => rfl
  | _ :: t, i + 1, j + 1, a, d, h =>
      list_getD_set_ne t i j a d (fun hh => h (by rw [hh]))

theorem list_getD_eq_default : ∀ (l : List String) (j : Nat) (d : String),
    l.length ≤ j → l.getD j d = d
  | [], _, _, _ => rfl
  | x :: t, 0, d, h => absurd h (by simp)
  | _ :: t, j + 1, d, h => list_getD_eq_default t j d (Nat.le_of_succ_le_succ h)

theorem firstIdx_lt_length : ∀ (c : List String) (key : String) (i : Nat),
    firstIdx c key = some i → i < c.length := by
  intro c
  induction c with
  | nil => intro key i h; simp [firstIdx] at h
  | cons x t ih =>
      intro key i h
      by_cases hx : x = key
      · simp [firstIdx, hx] at h
        simp only [List.length_cons]
        omega
      · simp [firstIdx, hx] at h
        obtain ⟨i', hi', rfl⟩ := h
        have := ih key i' hi'
        simp only [List.length_cons]
        omega

theorem halveAfterKey_getD_of_not_int (key : String) (c : List String) (j : Nat)
    (h : pyInt (c.getD j "") = none) :
    (halveAfterKey key c).getD j "" = c.getD j "" := by
  unfold halveAfterKey
  cases hidx : firstIdx c key with
  | none => rfl
  | some i =>
      by_cases hlen : i + 1 > c.length - 1
      · simp [hlen]
      · simp only [hlen, if_false]
        cases hp : pyInt (c.getD (i + 1) "") with
        | none => rfl
        | some n =>
            have hne : i + 1 ≠ j := by
              intro hij
              rw [hij] at hp
              rw [h] at hp
              exact Option.noConfusion hp
            exact list_getD_set_ne c (i + 1) j _ "" hne

theorem reduce_cmdline_getD_of_not_int (c : List String) (j : Nat)
    (h : pyInt (c.getD j "") = none) :
    (reduce_cmdline c).getD j "" = c.getD j "" := by
  unfold reduce_cmdline
  have h1 := halveAfterKey_getD_of_not_int "-nk" c j h
  have h2 := halveAfterKey_getD_of_not_int "-npools" (halveAfterKey "-nk" c) j
    (by rw [h1]; exact h)
  rw [h2, h1]

theorem foldl_min_le_all : ∀ (l : List ℚ) (a : ℚ),
    l.foldl min a ≤ a ∧ ∀ x ∈ l, l.foldl min a ≤ x := by
  intro l
  induction l with
  | nil => intro a; exact ⟨le_refl a, by simp⟩
  | cons x t ih =>
      intro a
      have hfold : (x :: t).foldl min a = t.foldl min (min a x) := rfl
      obtain ⟨h1, h2⟩ := ih (min a x)
      refine ⟨?_, ?_⟩
      · rw [hfold]; exact le_trans h1 (min_le_left a x)
      · intro y hy
        rw [hfold]
        rcases List.mem_cons.mp hy with rfl | hyt
        · exact le_trans h1 (min_le_right a y)
        · exact h2 y hyt

theorem np_min_le (l : List ℚ) (m : ℚ) (h : np_min l = some m) :
    ∀ x ∈ l, m ≤ x := by
  cases l with
  | nil => simp [np_min] at h
  | cons x t =>
      simp only [np_min, Option.some.injEq] at h
      intro y hy
      rcases List.mem_cons.mp hy with rfl | hyt
      · rw [← h]; exact (foldl_min_le_all t y).1
      · rw [← h]; exact (foldl_min_le_all t x).2 y hyt

theorem assocGet_assocSet_self (l : List (String × PVal)) (k : String) (v : PVal) :
    assocGet (assocSet l k v) k = some v := by
  induction l with
  | nil => simp [assocSet, assocGet]
  | cons hd tl ih =>
      obtain ⟨k', v'⟩ := hd
      by_cases h : k' = k
      · simp [assocSet, assocGet, h]
      · simp [assocSet, assocGet, h, ih]

theorem assocGet_assocSet_ne (l : List (String × PVal)) (k k' : String) (v : PVal)
    (h : k' ≠ k) : assocGet (assocSet l k' v) k = assocGet l k := by
  induction l with
  | nil => simp [assocSet, assocGet, h]
  | cons hd tl ih =>
      obtain ⟨k0, v0⟩ := hd
      by_cases h0 : k0 = k'
      · subst h0
        simp [assocSet, assocGet, h]
      · by_cases h1 : k0 = k
        · simp [assocSet, assocGet, h0, h1, Ne.symm h]
        · simp [assocSet, assocGet, h0, h1, ih]

theorem assocMerge_cons (base : List (String × PVal)) (k : String) (v : PVal)
    (t : List (String × PVal)) :
    assocMerge base ((k, v) :: t) = assocMerge (assocSet base k v) t := rfl

theorem assocGet_assocMerge_not_mem : ∀ (l base : List (String × PVal)) (k : String),
    k ∉ l.map Prod.fst → assocGet (assocMerge base l) k = assocGet base k := by
  intro l
  induction l with
  | nil => intro base k _; rfl
  | cons hd t ih =>
      intro base k hk
      obtain ⟨k0, v0⟩ := hd
      simp only [List.map_cons, List.mem_cons] at hk
      push_neg at hk
      rw [assocMerge_cons]
      rw [ih (assocSet base k0 v0) k hk.2]
      exact assocGet_assocSet_ne base k k0 v0 (fun he => hk.1 he.symm)

theorem assocGet_assocMerge_mem : ∀ (l base : List (String × PVal)) (k : String) (v : PVal),
    (l.map Prod.fst).Nodup → (k, v) ∈ l → assocGet (assocMerge base l) k = some v := by
  intro l
  induction l with
  | nil => intro base k v _ hm; simp at hm
  | cons hd t ih =>
      intro base k v hnd hm
      obtain ⟨k0, v0⟩ := hd
      simp only [List.map_cons, List.nodup_cons] at hnd
      rw [assocMerge_cons]
      rcases List.mem_cons.mp hm with heq | hmt
      · obtain ⟨rfl, rfl⟩ := Prod.mk.injEq .. ▸ And.intro (congrArg Prod.fst heq) (congrArg Prod.snd heq)
        rw [assocGet_assocMerge_not_mem t (assocSet base k v) k hnd.1]
        exact assocGet_assocSet_self base k v
      · exact ih (assocSet base k0 v0) k v hnd.2 hmt

theorem maxByPkAux_spec : ∀ (l : List Calc) (best : Calc),
    (maxByPkAux best l = best ∨ maxByPkAux best l ∈ l)
    ∧ best.pk ≤ (maxByPkAux best l).pk
    ∧ ∀ x ∈ l, x.pk ≤ (maxByPkAux best l).pk := by
  intro l
  induction l with
  | nil => intro best; exact ⟨Or.inl rfl, le_refl _, by simp⟩
  | cons x t ih =>
      intro best
      have hstep : maxByPkAux best (x :: t) = maxByPkAux (if x.pk > best.pk then x else best) t := rfl
      obtain ⟨ihmem, ihle, ihall⟩ := ih (if x.pk > best.pk then x else best)
      refine ⟨?_, ?_, ?_⟩
      · rw [hstep]
        rcases ihmem with he | hm
        · by_cases hgt : x.pk > best.pk
          · rw [he, if_pos hgt]; exact Or.inr (List.mem_cons_self x t)
          · rw [he, if_neg hgt]; exact Or.inl rfl
        · exact Or.inr (List.mem_cons_of_mem x hm)
      · rw [hstep]
        refine le_trans ?_ ihle
        by_cases hgt : x.pk > best.pk
        · rw [if_pos hgt]; exact le_of_lt hgt
        · rw [if_neg hgt]
      · intro y hy
        rw [hstep]
        rcases List.mem_cons.mp hy with rfl | hyt
        · refine le_trans ?_ ihle
          by_cases hgt : y.pk > best.pk
          · rw [if_pos hgt]
          · rw [if_neg hgt]; omega
        · exact ihall y hyt

theorem maxByPk_spec (l : List Calc) (c : Calc) (h : maxByPk l = some c) :
    c ∈ l ∧ ∀ x ∈ l, x.pk ≤ c.pk := by
  cases l with
  | nil => simp [maxByPk] at h
  | cons hd t =>
      simp only [maxByPk, Option.some.injEq] at h
      obtain ⟨hmem, hle, hall⟩ := maxByPkAux_spec t hd
      subst h
      constructor
      · rcases hmem with he | hm
        · rw [he]; exact List.mem_cons_self hd t
        · exact List.mem_cons_of_mem hd hm
      · intro x hx
        rcases List.mem_cons.mp hx with rfl | hxt
        · exact hle
        · exact hall x hxt

theorem apply_cmdline_reduction_num (i : CtxInputs) :
    (apply_cmdline_reduction i).num_mpiprocs_per_machine = i.num_mpiprocs_per_machine := by
  unfold apply_cmdline_reduction
  by_cases hs : i.has_settings
  · simp only [hs, if_true]
    cases hc : i.cmdline with
    | none => rfl
    | some c => by_cases he : c.isEmpty <;> simp [he]
  · simp [hs]

theorem apply_cmdline_reduction_cmdline (i : CtxInputs) (c : List String)
    (hs : i.has_settings = true) (hc : i.cmdline = some c) (hne : c.isEmpty = false) :
    (apply_cmdline_reduction i).cmdline = some (reduce_cmdline c) := by
  unfold apply_cmdline_reduction
  simp [hs, hc, hne]

theorem assocHas_assocSet_ne (l : List (String × PVal)) (k k' : String) (v : PVal)
    (h : k' ≠ k) : assocHas (assocSet l k' v) k = assocHas l k := by
  unfold assocHas
  rw [assocGet_assocSet_ne l k k' v h]

/-! ## Claim theorems -/

/-- C1: with an OOM signature in the scheduler stderr, the handler reports a
retry and halves `num_mpiprocs_per_machine` (integer division) for every
current value `p ≥ 2`, and for `p = 1` it terminates with the
stdout-incomplete exit code without touching the inputs. -/
theorem c1_oom_handler_halves_or_terminates (stderr : List String) (inputs : CtxInputs)
    (hoom : stderr.any oom_line = true) :
    (∀ p : Nat, inputs.num_mpiprocs_per_machine.getD 1 = p → 2 ≤ p →
      (handle_output_stdout_incomplete stderr inputs).1 = none
      ∧ (handle_output_stdout_incomplete stderr inputs).2.num_mpiprocs_per_machine
          = some (p / 2))
    ∧ (inputs.num_mpiprocs_per_machine.getD 1 = 1 →
      handle_output_stdout_incomplete stderr inputs
        = (some ERROR_OUTPUT_STDOUT_INCOMPLETE, inputs)) := by
  constructor
  · intro p hp h2
    have hne : ¬ inputs.num_mpiprocs_per_machine.getD 1 = 1 := by
      rw [hp]; omega
    have hp1 : p ≠ 1 := by omega
    constructor
    · simp [handle_output_stdout_incomplete, hoom, hne]
    · simp [handle_output_stdout_incomplete, hoom, hp, hp1,
        apply_cmdline_reduction_num, mpi_proc_reduce_factor]
  · intro h1
    simp [handle_output_stdout_incomplete, hoom, h1]

/-- C1 witness: concrete evaluations at `p = 4` (halved to 2, retry) and
`p = 1` (unrecoverable, exit code 311). -/
theorem c1_oom_handler_witness :
    (["Out Of Memory"] : List String).any oom_line = true
    ∧ (handle_output_stdout_incomplete ["Out Of Memory"] ⟨some 4, false, none⟩).1 = none
    ∧ (handle_output_stdout_incomplete ["Out Of Memory"]
        ⟨some 4, false, none⟩).2.num_mpiprocs_per_machine = some 2
    ∧ handle_output_stdout_incomplete ["Out Of Memory"] ⟨some 1, false, none⟩
        = (some ERROR_OUTPUT_STDOUT_INCOMPLETE, ⟨some 1, false, none⟩) := by
  have hoom : (["Out Of Memory"] : List String).any oom_line = true := by decide
  have h := c1_oom_handler_halves_or_terminates ["Out Of Memory"] ⟨some 4, false, none⟩ hoom
  have h' := c1_oom_handler_halves_or_terminates ["Out Of Memory"] ⟨some 1, false, none⟩ hoom
  refine ⟨hoom, (h.1 4 rfl (by omega)).1, ?_, h'.2 rfl⟩
  have h4 := (h.1 4 rfl (by omega)).2
  simpa using h4

/-- C2 (code bug): on a site whose declared semicore set is not consumed by
its orbital list, `get_semicore_list` RETURNS the `ValueError` as an ordinary
value instead of raising it (wannier.py line 1446), so the builder would not
abort; on consistent metadata it returns the 1-based contiguous index ranges
of the semicore orbitals in site and declared-orbital order. -/
theorem c2_semicore_error_is_returned_value :
    get_semicore_list ["X"] c2FailingTable
      = SemicoreResult.errValue "Error when processing pseudo X"
    ∧ get_semicore_list ["A", "B"] c2OkTable = SemicoreResult.ok [1] := by
  constructor <;> rfl

/-- C4: AUTO disentanglement resolution — INSULATOR always yields NONE; any
other electronic type resolves HYDROGEN/RANDOM to WINDOW_FIXED, NUMERIC to
WINDOW_AND_PROJECTABILITY, SCDM to NONE, and any projection value outside the
enumeration raises a ValueError. -/
theorem c4_auto_disentanglement_table (et : ElectronicType) (p : ProjectionInput)
    (s : String) (h : et ≠ ElectronicType.INSULATOR) :
    resolve_disentanglement WannierDisentanglementType.AUTO ElectronicType.INSULATOR p
      = Except.ok WannierDisentanglementType.NONE
    ∧ resolve_disentanglement WannierDisentanglementType.AUTO et
        (ProjectionInput.known WannierProjectionType.HYDROGEN)
      = Except.ok WannierDisentanglementType.WINDOW_FIXED
    ∧ resolve_disentanglement WannierDisentanglementType.AUTO et
        (ProjectionInput.known WannierProjectionType.RANDOM)
      = Except.ok WannierDisentanglementType.WINDOW_FIXED
    ∧ resolve_disentanglement WannierDisentanglementType.AUTO et
        (ProjectionInput.known WannierProjectionType.NUMERIC)
      = Except.ok WannierDisentanglementType.WINDOW_AND_PROJECTABILITY
    ∧ resolve_disentanglement WannierDisentanglementType.AUTO et
        (ProjectionInput.known WannierProjectionType.SCDM)
      = Except.ok WannierDisentanglementType.NONE
    ∧ resolve_disentanglement WannierDisentanglementType.AUTO et
        (ProjectionInput.other s)
      = Except.error
          ("Cannot automatically guess disentanglement type from projection type: " ++ s) := by
  refine ⟨rfl, ?_, ?_, ?_, ?_, ?_⟩ <;>
    simp [resolve_disentanglement, resolve_auto_disentanglement, h]

/-- C4 witness: the resolution table evaluated at METAL. -/
theorem c4_auto_disentanglement_witness :
    resolve_disentanglement WannierDisentanglementType.AUTO ElectronicType.INSULATOR
        (ProjectionInput.known WannierProjectionType.HYDROGEN)
      = Except.ok WannierDisentanglementType.NONE
    ∧ resolve_disentanglement WannierDisentanglementType.AUTO ElectronicType.METAL
        (ProjectionInput.known WannierProjectionType.HYDROGEN)
      = Except.ok WannierDisentanglementType.WINDOW_FIXED
    ∧ resolve_disentanglement WannierDisentanglementType.AUTO ElectronicType.METAL
        (ProjectionInput.known WannierProjectionType.RANDOM)
      = Except.ok WannierDisentanglementType.WINDOW_FIXED
    ∧ resolve_disentanglement WannierDisentanglementType.AUTO ElectronicType.METAL
        (ProjectionInput.known WannierProjectionType.NUMERIC)
      = Except.ok WannierDisentanglementType.WINDOW_AND_PROJECTABILITY
    ∧ resolve_disentanglement WannierDisentanglementType.AUTO ElectronicType.METAL
        (ProjectionInput.known WannierProjectionType.SCDM)
      = Except.ok WannierDisentanglementType.NONE
    ∧ resolve_disentanglement WannierDisentanglementType.AUTO ElectronicType.METAL
        (ProjectionInput.other "mystery")
      = Except.error
          ("Cannot automatically guess disentanglement type from projection type: "
            ++ "mystery") := by
  have h := c4_auto_disentanglement_table ElectronicType.METAL
    (ProjectionInput.known WannierProjectionType.HYDROGEN) "mystery" (by decide)
  exact ⟨h.1, h.2.1, h.2.2.1, h.2.2.2.1, h.2.2.2.2.1, h.2.2.2.2.2⟩

/-- C7: `get_fermi_energy` returns the `fermi_energy` field exactly when the
declared unit equals `eV` and `None` otherwise, never converting units; and
with `relative_dis_windows` requested, a non-retrievable Fermi energy aborts
`prepare_wannier90_inputs` with an error. -/
theorem c7_fermi_energy_unit_gate (o : ScfOut) :
    (o.fermi_energy_units = some "eV" → get_fermi_energy o = o.fermi_energy)
    ∧ (o.fermi_energy_units ≠ some "eV" → get_fermi_energy o = none)
    ∧ (∀ (ctx : PrepCtx) (p0 : W90Params) (s : ScfOut),
        ctx.relative_dis_windows = true → ctx.scf = some s →
        get_fermi_energy s = none →
        prepare_wannier90_inputs ctx p0
          = Except.error
              "relative_dis_windows = True but cannot retrieve Fermi energy from scf output") := by
  refine ⟨?_, ?_, ?_⟩
  · intro h; simp [get_fermi_energy, h]
  · intro h; simp [get_fermi_energy, h]
  · intro ctx p0 s hrel hscf hf
    simp [prepare_wannier90_inputs, pre_cap_params, fermi_stage, hscf, hrel, hf,
      Except.map, Except.bind]

/-- C7 witness: a bundle in eV yields its value, a bundle in Ry yields none,
and a missing-unit bundle aborts preparation under relative windows. -/
theorem c7_fermi_energy_unit_gate_witness :
    get_fermi_energy ⟨some 5, some "eV"⟩ = some 5
    ∧ get_fermi_energy ⟨some 5, some "Ry"⟩ = none
    ∧ prepare_wannier90_inputs ⟨true, some ⟨some 5, some "Ry"⟩, false, 0, []⟩
        ⟨none, none, none, none, none⟩
      = Except.error
          "relative_dis_windows = True but cannot retrieve Fermi energy from scf output" := by
  refine ⟨(c7_fermi_energy_unit_gate ⟨some 5, some "eV"⟩).1 rfl,
    (c7_fermi_energy_unit_gate ⟨some 5, some "Ry"⟩).2.1 (by decide), ?_⟩
  exact (c7_fermi_energy_unit_gate ⟨some 5, some "Ry"⟩).2.2
    ⟨true, some ⟨some 5, some "Ry"⟩, false, 0, []⟩
    ⟨none, none, none, none, none⟩ ⟨some 5, some "Ry"⟩ rfl rfl (by decide)

/-- C9: the projwfc stage flag is forced on for SCDM projections or a
WINDOW_AUTO disentanglement input, whatever the protocol flag says; otherwise
the protocol flag (default false) alone decides. -/
theorem c9_projwfc_enablement (flag : Option Bool) (proj : WannierProjectionType)
    (disent : WannierDisentanglementType) :
    ((proj = WannierProjectionType.SCDM ∨ disent = WannierDisentanglementType.WINDOW_AUTO) →
      resolve_run_projwfc flag proj disent = true)
    ∧ (proj ≠ WannierProjectionType.SCDM → disent ≠ WannierDisentanglementType.WINDOW_AUTO →
      resolve_run_projwfc flag proj disent = flag.getD false) := by
  unfold resolve_run_projwfc
  constructor
  · rintro (rfl | rfl)
    · by_cases hd : disent = WannierDisentanglementType.WINDOW_AUTO <;> simp [hd]
    · simp
  · intro hp hd
    simp [hp, hd]

/-- C9 witness: SCDM forces projwfc on even with the flag absent; a hydrogen
projection without WINDOW_AUTO follows the (false) protocol flag. -/
theorem c9_projwfc_enablement_witness :
    resolve_run_projwfc none WannierProjectionType.SCDM
      WannierDisentanglementType.NONE = true
    ∧ resolve_run_projwfc (some false) WannierProjectionType.HYDROGEN
      WannierDisentanglementType.NONE = false := by
  refine ⟨(c9_projwfc_enablement none WannierProjectionType.SCDM
    WannierDisentanglementType.NONE).1 (Or.inl rfl), ?_⟩
  have h := (c9_projwfc_enablement (some false) WannierProjectionType.HYDROGEN
    WannierDisentanglementType.NONE).2 (by decide) (by decide)
  simpa using h

/-- C10: whenever the scf stage is in the context, a non-retrievable Fermi
energy aborts `prepare_wannier90_inputs` even with `relative_dis_windows`
false; when it is retrievable and `relative_dis_windows` is true, the Fermi
stage shifts exactly the window keys present in the parameters by the Fermi
energy. -/
theorem c10_fermi_required_and_window_shift :
    (∀ (ctx : PrepCtx) (p0 : W90Params) (s : ScfOut), ctx.scf = some s →
      get_fermi_energy s = none →
      prepare_wannier90_inputs ctx p0
        = Except.error
            "relative_dis_windows = True but cannot retrieve Fermi energy from scf output")
    ∧ (∀ (ctx : PrepCtx) (p0 : W90Params) (s : ScfOut) (ef : ℚ), ctx.scf = some s →
      ctx.relative_dis_windows = true → get_fermi_energy s = some ef →
      fermi_stage ctx p0 = Except.ok (shift_windows ef p0)
      ∧ (∀ v, p0.dis_froz_min = some v → (shift_windows ef p0).dis_froz_min = some (v + ef))
      ∧ (∀ v, p0.dis_froz_max = some v → (shift_windows ef p0).dis_froz_max = some (v + ef))
      ∧ (∀ v, p0.dis_win_min = some v → (shift_windows ef p0).dis_win_min = some (v + ef))
      ∧ (∀ v, p0.dis_win_max = some v → (shift_windows ef p0).dis_win_max = some (v + ef))
      ∧ (p0.dis_froz_min = none → (shift_windows ef p0).dis_froz_min = none)
      ∧ (p0.dis_froz_max = none → (shift_windows ef p0).dis_froz_max = none)
      ∧ (p0.dis_win_min = none → (shift_windows ef p0).dis_win_min = none)
      ∧ (p0.dis_win_max = none → (shift_windows ef p0).dis_win_max = none)) := by
  constructor
  · intro ctx p0 s hscf hf
    simp [prepare_wannier90_inputs, pre_cap_params, fermi_stage, hscf, hf,
      Except.map, Except.bind]
  · intro ctx p0 s ef hscf hrel hf
    refine ⟨?_, ?_, ?_, ?_, ?_, ?_, ?_, ?_, ?_⟩
    · simp [fermi_stage, hscf, hrel, hf]
    all_goals intro hv
    all_goals try intro hv'
    all_goals simp_all [shift_windows]

/-- C10 witness: a missing-unit scf output aborts preparation with
`relative_dis_windows` false, and a retrievable Fermi energy of 2 shifts a
present window key from 1 to 3 while keeping absent keys absent. -/
theorem c10_fermi_required_and_window_shift_witness :
    prepare_wannier90_inputs ⟨false, some ⟨some 5, none⟩, false, 0, []⟩
        ⟨none, none, none, none, none⟩
      = Except.error
          "relative_dis_windows = True but cannot retrieve Fermi energy from scf output"
    ∧ fermi_stage ⟨true, some ⟨some 2, some "eV"⟩, false, 0, []⟩
        ⟨some 1, none, none, none, some 8⟩
      = Except.ok (shift_windows 2 ⟨some 1, none, none, none, some 8⟩)
    ∧ (shift_windows 2 ⟨some 1, none, none, none, some 8⟩).dis_froz_min = some 3
    ∧ (shift_windows 2 ⟨some 1, none, none, none, some 8⟩).dis_froz_max = none := by
  have h1 := c10_fermi_required_and_window_shift.1
    ⟨false, some ⟨some 5, none⟩, false, 0, []⟩
    ⟨none, none, none, none, none⟩ ⟨some 5, none⟩ rfl (by decide)
  have h2 := c10_fermi_required_and_window_shift.2
    ⟨true, some ⟨some 2, some "eV"⟩, false, 0, []⟩
    ⟨some 1, none, none, none, some 8⟩ ⟨some 2, some "eV"⟩ 2 rfl rfl (by decide)
  refine ⟨h1, h2.1, ?_, h2.2.2.2.2.2.2.1 rfl⟩
  have h3 := h2.2.1 1 rfl
  norm_num at h3 ⊢
  exact h3

/-- C3: whenever `dis_froz_max` holds a ceiling C at the entry of the cap
block, the submitted ceiling equals `min C M` with M the minimum over all
k-points of the energy of band `num_wann`; in particular the cap never raises
the ceiling, and M really is a lower bound of that band column. -/
theorem c3_dis_froz_max_cap (ctx : PrepCtx) (p0 p2 : W90Params) (C M : ℚ) (nw : Nat)
    (h2 : pre_cap_params ctx p0 = Except.ok p2)
    (hC : p2.dis_froz_max = some C)
    (hnw : p2.num_wann = some nw)
    (_hnw1 : 1 ≤ nw)
    (_hrows : ∀ row ∈ ctx.projwfc_bands, nw - 1 < row.length)
    (hM : np_min (bandColumn ctx.projwfc_bands (nw - 1)) = some M) :
    prepare_wannier90_inputs ctx p0
      = Except.ok { p2 with dis_froz_max := some (min M C) }
    ∧ min M C ≤ C
    ∧ ∀ x ∈ bandColumn ctx.projwfc_bands (nw - 1), M ≤ x := by
  refine ⟨?_, min_le_right M C, np_min_le _ _ hM⟩
  simp [prepare_wannier90_inputs, h2, Except.bind, cap_stage, hC, hnw, hM]

/-- C3 witness: a user ceiling of 5 with band-2 energies 3 and 4 over two
k-points is capped to 3. -/
theorem c3_dis_froz_max_cap_witness :
    pre_cap_params ⟨false, none, false, 0, [[1, 3], [2, 4]]⟩
        ⟨none, some 5, none, none, some 2⟩
      = Except.ok ⟨none, some 5, none, none, some 2⟩
    ∧ np_min (bandColumn [[1, 3], [2, 4]] 1) = some 3
    ∧ prepare_wannier90_inputs ⟨false, none, false, 0, [[1, 3], [2, 4]]⟩
        ⟨none, some 5, none, none, some 2⟩
      = Except.ok ⟨none, some (min 3 5), none, none, some 2⟩
    ∧ (min (3 : ℚ) 5 ≤ 5) := by
  have h := c3_dis_froz_max_cap ⟨false, none, false, 0, [[1, 3], [2, 4]]⟩
    ⟨none, some 5, none, none, some 2⟩ ⟨none, some 5, none, none, some 2⟩
    5 3 2 rfl rfl rfl (by omega)
    (by intro row hrow; fin_cases hrow <;> simp)
    (by norm_num [np_min, bandColumn])
  exact ⟨rfl, by norm_num [np_min, bandColumn], h.1, h.2.1⟩

/-- C6: for a cmdline containing a pool-count flag, the handler still reports
retry and stores the reduced cmdline; the token after the flag's first
occurrence is left unchanged when it is missing or non-numeric, is replaced
by its (floor) integer half when numeric, and any non-numeric token survives
the whole two-pass reduction unchanged. -/
theorem c6_pool_flag_token_handling (stderr : List String) (inputs : CtxInputs)
    (c : List String) (key : String)
    (hoom : stderr.any oom_line = true)
    (hp : inputs.num_mpiprocs_per_machine.getD 1 ≠ 1)
    (hs : inputs.has_settings = true)
    (hc : inputs.cmdline = some c)
    (hne : c.isEmpty = false)
    (_hkey : key = "-nk" ∨ key = "-npools") :
    ((handle_output_stdout_incomplete stderr inputs).1 = none
      ∧ (handle_output_stdout_incomplete stderr inputs).2.cmdline
          = some (reduce_cmdline c))
    ∧ (∀ i, firstIdx c key = some i →
        (i + 1 = c.length → halveAfterKey key c = c)
        ∧ (pyInt (c.getD (i + 1) "") = none → halveAfterKey key c = c)
        ∧ (∀ n : Int, pyInt (c.getD (i + 1) "") = some n →
            halveAfterKey key c = c.set (i + 1) (toString (Int.fdiv n 2))))
    ∧ (∀ j, j < c.length → pyInt (c.getD j "") = none →
        (reduce_cmdline c).getD j "" = c.getD j "") := by
  refine ⟨⟨?_, ?_⟩, ?_, ?_⟩
  · simp [handle_output_stdout_incomplete, hoom, hp]
  · have hfield : (handle_output_stdout_incomplete stderr inputs).2
        = apply_cmdline_reduction { inputs with
            num_mpiprocs_per_machine :=
              some (inputs.num_mpiprocs_per_machine.getD 1 / mpi_proc_reduce_factor) } := by
      simp [handle_output_stdout_incomplete, hoom, hp]
    rw [hfield]
    exact apply_cmdline_reduction_cmdline _ c hs hc hne
  · intro i hidx
    have hilt := firstIdx_lt_length c key i hidx
    refine ⟨?_, ?_, ?_⟩
    · intro hlast
      have hgt : i + 1 > c.length - 1 := by omega
      simp [halveAfterKey, hidx, hgt]
    · intro hnone
      rw [List.getD_eq_getElem?_getD] at hnone
      by_cases hlen : i + 1 > c.length - 1
      · simp [halveAfterKey, hidx, hlen]
      · simp [halveAfterKey, hidx, hlen, hnone]
    · intro n hn
      have hlt : i + 1 < c.length := by
        by_contra hge
        push_neg at hge
        rw [list_getD_eq_default c (i + 1) "" hge] at hn
        have : pyInt "" = none := by decide
        rw [this] at hn
        exact Option.noConfusion hn
      have hlen : ¬ i + 1 > c.length - 1 := by omega
      rw [List.getD_eq_getElem?_getD] at hn
      simp [halveAfterKey, hidx, hlen, hn]
  · intro j _ hj
    exact reduce_cmdline_getD_of_not_int c j hj

/-- C6 witness: cmdline `['-nk', 'ab']` — the non-numeric token survives, the
handler reports retry, and a numeric `['-npools', '16']` token is halved. -/
theorem c6_pool_flag_token_handling_witness :
    (handle_output_stdout_incomplete ["Out Of Memory"]
        ⟨some 4, true, some ["-nk", "ab"]⟩).1 = none
    ∧ (handle_output_stdout_incomplete ["Out Of Memory"]
        ⟨some 4, true, some ["-nk", "ab"]⟩).2.cmdline
      = some (reduce_cmdline ["-nk", "ab"])
    ∧ halveAfterKey "-nk" ["-nk", "ab"] = ["-nk", "ab"]
    ∧ (reduce_cmdline ["-nk", "ab"]).getD 1 "" = "ab"
    ∧ halveAfterKey "-npools" ["-npools", "16"] = ["-npools", "8"] := by
  have h := c6_pool_flag_token_handling ["Out Of Memory"]
    ⟨some 4, true, some ["-nk", "ab"]⟩ ["-nk", "ab"] "-nk"
    (by decide) (by decide) rfl rfl (by decide) (Or.inl rfl)
  have h' := c6_pool_flag_token_handling ["Out Of Memory"]
    ⟨some 4, true, some ["-npools", "16"]⟩ ["-npools", "16"] "-npools"
    (by decide) (by decide) rfl rfl (by decide) (Or.inr rfl)
  refine ⟨h.1.1, h.1.2, (h.2.1 0 (by decide)).2.1 (by decide), ?_, ?_⟩
  · have h4 := h.2.2 1 (by decide) (by decide)
    simpa using h4
  · have h16 := (h'.2.1 0 (by decide)).2.2 16 (by decide)
    simpa using h16

/-- C8: the mu/sigma update writes the fitted mu only when `scdm_mu` is
absent from the `inputpp` group and the fitted sigma only when `scdm_sigma`
is absent; every field already present — including user-supplied mu/sigma —
and every other key of the parameter bundle is returned unchanged. -/
theorem c8_scdm_mu_sigma_update (params inputpp : List (String × PVal))
    (mu sigma : ℚ)
    (h : assocGet params "inputpp" = some (PVal.dict inputpp)) :
    update_scdm_mu_sigma params mu sigma
      = Except.ok (assocSet params "inputpp"
          (PVal.dict (scdm_updated_inputpp inputpp mu sigma)))
    ∧ (assocHas inputpp "scdm_mu" = true →
        assocGet (scdm_updated_inputpp inputpp mu sigma) "scdm_mu"
          = assocGet inputpp "scdm_mu")
    ∧ (assocHas inputpp "scdm_mu" = false →
        assocGet (scdm_updated_inputpp inputpp mu sigma) "scdm_mu"
          = some (PVal.num mu))
    ∧ (assocHas inputpp "scdm_sigma" = true →
        assocGet (scdm_updated_inputpp inputpp mu sigma) "scdm_sigma"
          = assocGet inputpp "scdm_sigma")
    ∧ (assocHas inputpp "scdm_sigma" = false →
        assocGet (scdm_updated_inputpp inputpp mu sigma) "scdm_sigma"
          = some (PVal.num sigma))
    ∧ (∀ k, k ≠ "scdm_mu" → k ≠ "scdm_sigma" →
        assocGet (scdm_updated_inputpp inputpp mu sigma) k = assocGet inputpp k)
    ∧ (∀ k, k ≠ "inputpp" →
        assocGet (assocSet params "inputpp"
            (PVal.dict (scdm_updated_inputpp inputpp mu sigma))) k
          = assocGet params k) := by
  have hms : ("scdm_mu" : String) ≠ "scdm_sigma" := by decide
  have hsm : ("scdm_sigma" : String) ≠ "scdm_mu" := by decide
  refine ⟨?_, ?_, ?_, ?_, ?_, ?_, ?_⟩
  · unfold update_scdm_mu_sigma
    rw [h]
  · intro hmu
    unfold scdm_updated_inputpp
    simp only [hmu, if_true]
    by_cases hsig : assocHas inputpp "scdm_sigma"
    · simp [hsig]
    · simp only [hsig, Bool.false_eq_true, if_false]
      exact assocGet_assocSet_ne inputpp "scdm_mu" "scdm_sigma" (PVal.num sigma) hsm
  · intro hmu
    unfold scdm_updated_inputpp
    simp only [hmu, Bool.false_eq_true, if_false]
    rw [assocHas_assocSet_ne inputpp "scdm_sigma" "scdm_mu" (PVal.num mu) hms]
    by_cases hsig : assocHas inputpp "scdm_sigma"
    · simp only [hsig, if_true]
      exact assocGet_assocSet_self inputpp "scdm_mu" (PVal.num mu)
    · simp only [hsig, Bool.false_eq_true, if_false]
      rw [assocGet_assocSet_ne _ "scdm_mu" "scdm_sigma" (PVal.num sigma) hsm]
      exact assocGet_assocSet_self inputpp "scdm_mu" (PVal.num mu)
  · intro hsig
    unfold scdm_updated_inputpp
    by_cases hmu : assocHas inputpp "scdm_mu"
    · simp [hmu, hsig]
    · simp only [hmu, Bool.false_eq_true, if_false]
      rw [assocHas_assocSet_ne inputpp "scdm_sigma" "scdm_mu" (PVal.num mu) hms]
      simp only [hsig, if_true]
      exact assocGet_assocSet_ne inputpp "scdm_sigma" "scdm_mu" (PVal.num mu) hms
  · intro hsig
    unfold scdm_updated_inputpp
    by_cases hmu : assocHas inputpp "scdm_mu"
    · simp only [hmu, if_true, hsig, Bool.false_eq_true, if_false]
      exact assocGet_assocSet_self inputpp "scdm_sigma" (PVal.num sigma)
    · simp only [hmu, Bool.false_eq_true, if_false]
      rw [assocHas_assocSet_ne inputpp "scdm_sigma" "scdm_mu" (PVal.num mu) hms]
      simp only [hsig, Bool.false_eq_true, if_false]
      exact assocGet_assocSet_self _ "scdm_sigma" (PVal.num sigma)
  · intro k hkmu hksig
    have hmu' : ("scdm_mu" : String) ≠ k := fun he => hkmu he.symm
    have hsig' : ("scdm_sigma" : String) ≠ k := fun he => hksig he.symm
    have hupd : ∀ upd : List (String × PVal),
        assocGet (if assocHas upd "scdm_sigma" then upd
          else assocSet upd "scdm_sigma" (PVal.num sigma)) k = assocGet upd k := by
      intro upd
      by_cases hs2 : assocHas upd "scdm_sigma"
      · simp [hs2]
      · simp only [hs2, Bool.false_eq_true, if_false]
        exact assocGet_assocSet_ne upd k "scdm_sigma" (PVal.num sigma) hsig'
    simp only [scdm_updated_inputpp]
    rw [hupd]
    by_cases hmu : assocHas inputpp "scdm_mu"
    · simp [hmu]
    · simp only [hmu, Bool.false_eq_true, if_false]
      exact assocGet_assocSet_ne inputpp k "scdm_mu" (PVal.num mu) hmu'
  · intro k hk
    exact assocGet_assocSet_ne params k "inputpp"
      (PVal.dict (scdm_updated_inputpp inputpp mu sigma)) (fun he => hk he.symm)

/-- C8 witness: with a user-supplied `scdm_mu` of 7, the fit values (1, 2)
only fill in `scdm_sigma`; the user mu is untouched. -/
theorem c8_scdm_mu_sigma_update_witness :
    update_scdm_mu_sigma [("inputpp", PVal.dict [("scdm_mu", PVal.num 7)])] 1 2
      = Except.ok (assocSet [("inputpp", PVal.dict [("scdm_mu", PVal.num 7)])]
          "inputpp" (PVal.dict (scdm_updated_inputpp [("scdm_mu", PVal.num 7)] 1 2)))
    ∧ assocGet (scdm_updated_inputpp [("scdm_mu", PVal.num 7)] 1 2) "scdm_mu"
      = assocGet [("scdm_mu", PVal.num 7)] "scdm_mu"
    ∧ assocGet (scdm_updated_inputpp [("scdm_mu", PVal.num 7)] 1 2) "scdm_sigma"
      = some (PVal.num 2) := by
  have h := c8_scdm_mu_sigma_update [("inputpp", PVal.dict [("scdm_mu", PVal.num 7)])]
    [("scdm_mu", PVal.num 7)] 1 2 rfl
  exact ⟨h.1, h.2.1 rfl, h.2.2.2.2.1 rfl⟩

/-- C5 counterexample: the claim attributes the copy-all-fields-from-the-
largest-pk-sub-job behaviour to the MatrixGeneration (pw2wannier90) stage; at
this concrete input the largest-pk postproc sub-job carries a corrected
`kmesh_tol`, yet the pw2wannier90 inputs built by
`prepare_pw2wannier90_inputs` contain no such field. -/
theorem c5_matrixgen_does_not_copy_counterexample :
    maxByPk [c5PPCalc] = some c5PPCalc
    ∧ assocGet c5PPCalc.inputs "kmesh_tol" = some (PVal.num 1)
    ∧ prepare_pw2wannier90_inputs c5P2WCtx = Except.ok c5P2WOut
    ∧ assocGet c5P2WOut "kmesh_tol" = none := by
  exact ⟨rfl, rfl, rfl, rfl⟩

/-- C5 (amended): it is the Localization stage (`run_wannier90`), not the
MatrixGeneration stage, that copies every input field from the postproc
sub-job with the numerically largest pk (the settings field is subsequently
rewritten to turn postproc mode off); that sub-job really is pk-maximal among
the called ones; and the MatrixGeneration stage inherits from the postproc
stage only its `nnkp_file` output. -/
theorem c5_localization_copies_max_pk_inputs (ctx : RunW90Ctx) (lc : Calc)
    (h : maxByPk ctx.pp_called = some lc)
    (hnd : (lc.inputs.map Prod.fst).Nodup) :
    run_wannier90_inputs ctx = Except.ok (run_wannier90_inputs_body ctx lc)
    ∧ (∀ k v, (k, v) ∈ lc.inputs → k ≠ "settings" →
        assocGet (run_wannier90_inputs_body ctx lc) k = some v)
    ∧ lc ∈ ctx.pp_called
    ∧ (∀ x ∈ ctx.pp_called, x.pk ≤ lc.pk)
    ∧ (∀ (pctx : P2WCtx) (pout : List (String × PVal)),
        prepare_pw2wannier90_inputs pctx = Except.ok pout →
        assocGet pout "nnkp_file" = some pctx.pp_nnkp_file) := by
  refine ⟨?_, ?_, (maxByPk_spec ctx.pp_called lc h).1,
    (maxByPk_spec ctx.pp_called lc h).2, ?_⟩
  · unfold run_wannier90_inputs
    rw [h]
  · intro k v hkv hks
    simp only [run_wannier90_inputs_body]
    rw [assocGet_assocSet_ne _ k "settings" _ (fun he => hks he.symm)]
    exact assocGet_assocMerge_mem lc.inputs _ k v hnd hkv
  · intro pctx pout hp
    simp only [prepare_pw2wannier90_inputs] at hp
    split at hp
    · exact absurd hp (by simp)
    · split at hp
      · split at hp
        · exact absurd hp (by simp)
        · split at hp
          · exact absurd hp (by simp)
          · injection hp with hh
            subst hh
            rw [assocGet_assocSet_ne _ "nnkp_file" "parameters" _ (by decide)]
            exact assocGet_assocSet_self _ "nnkp_file" _
      · injection hp with hh
        subst hh
        exact assocGet_assocSet_self _ "nnkp_file" _

/-- C5 witness: the localization inputs built over the pk-7 postproc sub-job
really contain its corrected `kmesh_tol`, and the pw2wannier90 inputs carry
the postproc `nnkp_file` output. -/
theorem c5_localization_copies_max_pk_witness :
    run_wannier90_inputs ⟨[], PVal.node "rf" 3, [c5PPCalc]⟩
      = Except.ok (run_wannier90_inputs_body ⟨[], PVal.node "rf" 3, [c5PPCalc]⟩ c5PPCalc)
    ∧ assocGet (run_wannier90_inputs_body ⟨[], PVal.node "rf" 3, [c5PPCalc]⟩ c5PPCalc)
        "kmesh_tol" = some (PVal.num 1)
    ∧ c5PPCalc ∈ [c5PPCalc]
    ∧ assocGet c5P2WOut "nnkp_file" = some (PVal.node "nnkp_file" 2) := by
  have h := c5_localization_copies_max_pk_inputs ⟨[], PVal.node "rf" 3, [c5PPCalc]⟩
    c5PPCalc rfl (by simp [c5PPCalc])
  refine ⟨h.1, h.2.1 "kmesh_tol" (PVal.num 1) (by simp [c5PPCalc]) (by decide),
    h.2.2.1, ?_⟩
  have hn := h.2.2.2.2 c5P2WCtx c5P2WOut rfl
  simpa [c5P2WCtx] using hn
